import Mathlib

/-!
Shallow embedding of `src/collector.py` (`GitHubDataCollector`): the request
executor `_make_request` and the collection driver `collect_repositories`,
instrumented with the traces needed to state the specification's invariants.

Modelling conventions:

* Calendar datetimes are modelled at day granularity as integers, day 0 being
  2014-01-01 (`datetime(2014, 1, 1)`, the fixed collection start).  Every date
  the driver manipulates is a midnight, except `end_date = datetime.now()`.
  `now` is therefore represented by the integer day `endDay` it falls in
  together with a boolean `nowAtMidnight` telling whether it is exactly the
  midnight opening that day — the only extra information the driver's
  comparisons (`start_date < end_date`, `current_end > end_date`) can observe.
* The wall clock `time.time()` is an integer number of seconds, threaded
  through the executor and advanced by the amount slept.
* The upstream HTTP service is a finite script of responses, consumed one per
  `session.get`.  Running off the end of the script is a `scriptExhausted`
  error, caught by the driver's `except Exception` like any other exception.
* `time.sleep` raises `ValueError` on a negative argument, as in CPython;
  this is the `negativeSleep` error, which records the offending duration.
-/

namespace Collector

/-- A Python value occurring in a repository item: `repo.get(key)` yields
`None`, a string, or an integer. -/
inductive PyValue
  | pynone
  | pystr (s : String)
  | pyint (n : Int)
deriving DecidableEq

/-- One element of the `items` array of a search response, restricted to the
fields the collector reads. -/
structure RepoItem where
  name : PyValue
  full_name : PyValue
  stargazers_count : PyValue
  language : PyValue
  created_at : PyValue
deriving DecidableEq

/-- A row of the accumulator: the Python dict built at collector.py lines
77-83, i.e. an ordered association list from field name to value. -/
def project (repo : RepoItem) : List (String × PyValue) :=
  [("name", repo.name), ("full_name", repo.full_name),
   ("stargazers_count", repo.stargazers_count),
   ("language", repo.language), ("created_at", repo.created_at)]

/-- A row of the accumulator. -/
abbrev Row := List (String × PyValue)

/-- One scripted upstream response: the two rate-limit headers (absent
headers are `none`), whether `raise_for_status` passes, and the `items`
array of the JSON body (a missing `items` key behaves like `[]`). -/
structure ScriptedResponse where
  remaining : Option Int
  reset : Option Int
  status_ok : Bool
  items : List RepoItem
deriving DecidableEq

/-- The query parameters of one GET against the search endpoint
(collector.py lines 60-65 and 69). -/
structure Params where
  q : String
  sort : String
  order : String
  per_page : Nat
  page : Nat
deriving DecidableEq

/-- How a call to `_make_request` can fail. -/
inductive ReqError
  | transport
  | negativeSleep (duration : Int)
  | scriptExhausted
deriving DecidableEq

/-- Outcome of `_make_request`: the parsed body's `items`, or an exception. -/
inductive Outcome
  | ok (items : List RepoItem)
  | err (e : ReqError)
deriving DecidableEq

/-- Result of `_make_request`, together with its observable trace: the
durations actually passed to `time.sleep`, the GETs issued (url and params of
each), the wall clock afterwards, and the unconsumed rest of the script. -/
structure ReqResult where
  outcome : Outcome
  sleeps : List Int
  issued : List (String × Params)
  tEnd : Int
  rest : List ScriptedResponse
deriving DecidableEq

/-- `GitHubDataCollector._make_request` (collector.py lines 27-44).

Reads `X-RateLimit-Remaining` with default 30; below the low-water mark 5 it
computes `sleep_time = reset_time - time.time() + 1` (reset header defaulting
to 0), sleeps, and retries the identical request; otherwise it raises for a
non-2xx status and returns the parsed body.  `time.sleep` of a negative
duration raises `ValueError`, which propagates out of `_make_request`. -/
def _make_request (url : String) (params : Params) (now : Int) :
    List ScriptedResponse → ReqResult
  | [] => ⟨.err .scriptExhausted, [], [], now, []⟩
  | r :: rest =>
    let remaining := r.remaining.getD 30
    if remaining < 5 then
      let reset_time := r.reset.getD 0
      let sleep_time := reset_time - now + 1
      if sleep_time < 0 then
        ⟨.err (.negativeSleep sleep_time), [], [(url, params)], now, rest⟩
      else
        let retry := _make_request url params (now + sleep_time) rest
        ⟨retry.outcome, sleep_time :: retry.sleeps,
         (url, params) :: retry.issued, retry.tEnd, retry.rest⟩
    else if r.status_ok then
      ⟨.ok r.items, [], [(url, params)], now, rest⟩
    else
      ⟨.err .transport, [], [(url, params)], now, rest⟩

/-- `search_url = f"{self.base_url}/search/repositories"`. -/
def searchURL : String := "https://api.github.com/search/repositories"

/-- Days from 2014-01-01 to the civil date `(y, m, d)`, inverted: civil date
of day `day` (day 0 = 2014-01-01), via days since 1970-01-01. -/
def civilFromDays (day : Int) : Int × Int × Int :=
  let z := day + 16071 + 719468
  let era := (if 0 ≤ z then z else z - 146096) / 146097
  let doe := z - era * 146097
  let yoe := (doe - doe / 1460 + doe / 36524 - doe / 146096) / 365
  let y := yoe + era * 400
  let doy := doe - (365 * yoe + yoe / 4 - yoe / 100)
  let mp := (5 * doy + 2) / 153
  let d := doy - (153 * mp + 2) / 5 + 1
  let m := mp + (if mp < 10 then 3 else -9)
  (y + (if m ≤ 2 then 1 else 0), m, d)

/-- Zero-padded two-digit rendering of a month or day number. -/
def pad2 (n : Int) : String :=
  if n < 10 then "0" ++ toString n else toString n

/-- `strftime('%Y-%m-%d')` of the midnight opening day `day`. -/
def fmtDate (day : Int) : String :=
  let c := civilFromDays day
  toString c.1 ++ "-" ++ pad2 c.2.1 ++ "-" ++ pad2 c.2.2

/-- The date filter of collector.py line 57. -/
def date_range (startDate curEnd : Int) : String :=
  "created:" ++ fmtDate startDate ++ ".." ++ fmtDate curEnd

/-- The params dict of collector.py lines 60-65 with `params['page']` set. -/
def mkParams (q : String) (page : Nat) : Params :=
  ⟨q, "stars", "desc", 100, page⟩

/-- `current_end = start_date + pd.Timedelta(days=30)`, clipped to
`end_date` (collector.py lines 53-55).  At day granularity the clip test
`current_end > end_date` is `start_date + 30 > endDay` whether or not `now`
is a midnight. -/
def currentEndOf (startDate endDay : Int) : Int :=
  if startDate + 30 > endDay then endDay else startDate + 30

/-- The comparison `midnight of day s < now` used by the outer loop guard
`start_date < end_date`: strict on days when `now` is exactly a midnight,
non-strict otherwise. -/
def dateGuard (nowAtMidnight : Bool) (s endDay : Int) : Bool :=
  if nowAtMidnight then decide (s < endDay) else decide (s ≤ endDay)

/-- The `for repo in response['items']` loop of collector.py lines 76-85:
append the projection of each item, breaking the moment
`len(repositories) >= max_repos`.  Returns the new accumulator and the
snapshot of its length after each individual append. -/
def appendItems (max_repos : Int) (repositories : List Row) :
    List RepoItem → List Row × List Nat
  | [] => (repositories, [])
  | item :: rest =>
    let repos' := repositories ++ [project item]
    if max_repos ≤ (repos'.length : Int) then (repos', [repos'.length])
    else
      let next := appendItems max_repos repos' rest
      (next.1, repos'.length :: next.2)

/-- Result of the inner pagination loop (and of a whole run, per window),
with traces: GETs issued, sleep durations, accumulator-length snapshots. -/
structure InnerResult where
  repositories : List Row
  t : Int
  script : List ScriptedResponse
  issued : List (String × Params)
  sleeps : List Int
  snaps : List Nat
deriving DecidableEq

/-- The inner pagination loop of collector.py lines 67-93, from page number
`page`: while the accumulator is below target, fetch the page; any exception
breaks the loop; an empty `items` breaks the loop; otherwise append item
projections (stopping mid-page at the target), increment the page and break
once it exceeds 10. -/
def innerLoop (max_repos : Int) (q : String) (repositories : List Row)
    (page : Nat) (now : Int) (script : List ScriptedResponse) : InnerResult :=
  if _h : (repositories.length : Int) < max_repos then
    let req := _make_request searchURL (mkParams q page) now script
    match req.outcome with
    | .err _ => ⟨repositories, req.tEnd, req.rest, req.issued, req.sleeps, []⟩
    | .ok items =>
      if items = [] then
        ⟨repositories, req.tEnd, req.rest, req.issued, req.sleeps, []⟩
      else
        let app := appendItems max_repos repositories items
        if _h10 : page + 1 > 10 then
          ⟨app.1, req.tEnd, req.rest, req.issued, req.sleeps, app.2⟩
        else
          let next := innerLoop max_repos q app.1 (page + 1) req.tEnd req.rest
          ⟨next.repositories, next.t, next.script, req.issued ++ next.issued,
           req.sleeps ++ next.sleeps, app.2 ++ next.snaps⟩
  else ⟨repositories, now, script, [], [], []⟩
termination_by 11 - page
decreasing_by omega

/-- Result of a whole run: the final accumulator (the rows of the returned
`DataFrame`), the traces, and the `(start, end)` day pair of each window
searched. -/
structure RunResult where
  repositories : List Row
  issued : List (String × Params)
  sleeps : List Int
  snaps : List Nat
  windows : List (Int × Int)
deriving DecidableEq

/-- The outer window loop of collector.py lines 52-95: while the accumulator
is below target and `start_date < end_date`, form the (possibly clipped)
30-day window, run the inner pagination loop on its query, then advance
`start_date` to `current_end + 1 day`. -/
def outerLoop (base_query : String) (max_repos : Int) (endDay : Int)
    (nowAtMidnight : Bool) (startDate : Int) (repositories : List Row)
    (now : Int) (script : List ScriptedResponse) : RunResult :=
  if _h : (repositories.length : Int) < max_repos ∧
      dateGuard nowAtMidnight startDate endDay = true then
    let currentEnd := currentEndOf startDate endDay
    let q := base_query ++ " " ++ date_range startDate currentEnd
    let inner := innerLoop max_repos q repositories 1 now script
    let next := outerLoop base_query max_repos endDay nowAtMidnight
      (currentEnd + 1) inner.repositories inner.t inner.script
    ⟨next.repositories, inner.issued ++ next.issued,
     inner.sleeps ++ next.sleeps, inner.snaps ++ next.snaps,
     (startDate, currentEnd) :: next.windows⟩
  else ⟨repositories, [], [], [], []⟩
termination_by (endDay + 1 - startDate).toNat
decreasing_by
  obtain ⟨-, hd⟩ := _h
  have hs : startDate ≤ endDay := by
    cases nowAtMidnight <;> simp [dateGuard] at hd <;> omega
  unfold currentEndOf
  split <;> omega

/-- `GitHubDataCollector.collect_repositories` (collector.py lines 46-97):
start the accumulator empty at `start_date = datetime(2014, 1, 1)` (day 0)
and run the window loop up to `end_date = datetime.now()`. -/
def collect_repositories (base_query : String) (max_repos : Int)
    (endDay : Int) (nowAtMidnight : Bool) (t0 : Int)
    (script : List ScriptedResponse) : RunResult :=
  outerLoop base_query max_repos endDay nowAtMidnight 0 [] t0 script

/-- Key-insertion step of `pd.DataFrame`'s column inference over a list of
dicts: the keys of each row are appended, first-seen order, skipping keys
already present. -/
def addCols (cols : List String) (row : Row) : List String :=
  row.foldl (fun cs kv => if kv.1 ∈ cs then cs else cs ++ [kv.1]) cols

/-- The columns `pd.DataFrame(rows)` infers from a list of dicts: union of
the rows' keys in order of first appearance; an empty list gives an empty
frame with no columns. -/
def dataFrameColumns (rows : List Row) : List String :=
  rows.foldl addCols []

/-- `pd.DataFrame(repositories)` (collector.py line 97): named columns plus
the rows in insertion order. -/
def pdDataFrame (rows : List Row) : List String × List Row :=
  (dataFrameColumns rows, rows)

/-- The five projected field names, in the dict-literal order of
collector.py lines 77-83. -/
def fieldNames : List String :=
  ["name", "full_name", "stargazers_count", "language", "created_at"]

/-! ## Lemmas about the request executor -/

/-- Every GET issued by `_make_request`, retries included, uses the url and
params of the original call. -/
theorem _make_request_issued (url : String) (params : Params) (now : Int)
    (script : List ScriptedResponse) :
    ∀ x ∈ (_make_request url params now script).issued, x = (url, params) := by
  induction script generalizing now with
  | nil => simp [_make_request]
  | cons r rest ih =>
    simp only [_make_request]
    split
    · split
      · simp
      · intro x hx
        rcases List.mem_cons.mp hx with h | h
        · exact h
        · exact ih _ x h
    · split <;> simp

/-- C6 (code bug witness): with `remaining_quota = 2`, the reset header
absent (defaulting to 0) and `time.time() = 100`, `_make_request` computes
the sleep duration `0 - 100 + 1 = -99` and passes it to `time.sleep`, which
raises `ValueError`; the duration is not clamped to 0. -/
theorem C6_negative_sleep_not_clamped :
    (_make_request "u" (mkParams "q" 1) 100
        [⟨some 2, none, true, []⟩]).outcome = .err (.negativeSleep (-99)) ∧
    (-99 : Int) < 0 := by decide

/-- C9: collection is deterministic — two runs with the same base query,
target, clock and scripted upstream responses produce identical results
(rows, row order, traces and windows). -/
theorem C9_deterministic (bq₁ bq₂ : String) (m₁ m₂ e₁ e₂ : Int)
    (mid₁ mid₂ : Bool) (t₁ t₂ : Int) (s₁ s₂ : List ScriptedResponse)
    (hbq : bq₁ = bq₂) (hm : m₁ = m₂) (he : e₁ = e₂) (hmid : mid₁ = mid₂)
    (ht : t₁ = t₂) (hs : s₁ = s₂) :
    collect_repositories bq₁ m₁ e₁ mid₁ t₁ s₁ =
      collect_repositories bq₂ m₂ e₂ mid₂ t₂ s₂ := by
  subst hbq hm he hmid ht hs; rfl

/-- Witness for C9 at a concrete input. -/
theorem C9_deterministic_witness :
    collect_repositories "is:public stars:>=100" 5 40 false 0
        [⟨none, none, true, []⟩] =
      collect_repositories "is:public stars:>=100" 5 40 false 0
        [⟨none, none, true, []⟩] :=
  C9_deterministic _ _ _ _ _ _ _ _ _ _ _ _ rfl rfl rfl rfl rfl rfl

/-- C10: with `max_repos ≤ 0` the outer loop guard fails immediately on the
empty accumulator: no request is issued, no window is searched, and the
returned table is empty (with no columns). -/
theorem C10_nonpositive_max (bq : String) (max_repos endDay : Int)
    (mid : Bool) (t0 : Int) (script : List ScriptedResponse)
    (hm : max_repos ≤ 0) :
    collect_repositories bq max_repos endDay mid t0 script =
      ⟨[], [], [], [], []⟩ ∧
    dataFrameColumns
      (collect_repositories bq max_repos endDay mid t0 script).repositories
      = [] := by
  have hg : ¬((([] : List Row).length : Int) < max_repos ∧
      dateGuard mid 0 endDay = true) := by
    rintro ⟨hlt, -⟩
    simp at hlt
    omega
  unfold collect_repositories outerLoop
  rw [dif_neg hg]
  exact ⟨rfl, rfl⟩

/-- Witness for C10 at `max_repos = 0`. -/
theorem C10_nonpositive_max_witness :
    collect_repositories "q" 0 100 false 0 [⟨none, none, true, []⟩] =
      ⟨[], [], [], [], []⟩ ∧
    dataFrameColumns
      (collect_repositories "q" 0 100 false 0
        [⟨none, none, true, []⟩]).repositories = [] :=
  C10_nonpositive_max "q" 0 100 false 0 [⟨none, none, true, []⟩] (by decide)

/-- C3: on a response whose remaining-quota header is below 5, the executor
sleeps `reset_epoch_time - now + 1` seconds (when that duration is
non-negative, so that `time.sleep` accepts it) and re-issues the identical
request — same url, same params — and the value returned to the caller is
the result of the retried request, not of the throttled one. -/
theorem C3_throttle_retry (url : String) (params : Params) (now : Int)
    (r : ScriptedResponse) (rest : List ScriptedResponse) (qv : Int)
    (hq : r.remaining = some qv) (h5 : qv < 5)
    (hs : 0 ≤ r.reset.getD 0 - now + 1) :
    _make_request url params now (r :: rest) =
      ⟨(_make_request url params (now + (r.reset.getD 0 - now + 1)) rest).outcome,
       (r.reset.getD 0 - now + 1) ::
         (_make_request url params (now + (r.reset.getD 0 - now + 1)) rest).sleeps,
       (url, params) ::
         (_make_request url params (now + (r.reset.getD 0 - now + 1)) rest).issued,
       (_make_request url params (now + (r.reset.getD 0 - now + 1)) rest).tEnd,
       (_make_request url params (now + (r.reset.getD 0 - now + 1)) rest).rest⟩ ∧
    ∀ x ∈ (_make_request url params now (r :: rest)).issued, x = (url, params) := by
  refine ⟨?_, _make_request_issued url params now (r :: rest)⟩
  simp only [_make_request, hq, Option.getD_some]
  rw [if_pos h5, if_neg (by omega)]

/-- Witness for C3: `remaining_quota = 2`, `reset_epoch_time = now + 10`
with `now = 1000` — the executor sleeps exactly 11 seconds and consumes the
retried request's result. -/
theorem C3_throttle_retry_witness :
    (_make_request "u" (mkParams "q" 3) 1000
        [⟨some 2, some 1010, true, []⟩, ⟨some 30, none, true, []⟩]).sleeps
      = [11] ∧
    (_make_request "u" (mkParams "q" 3) 1000
        [⟨some 2, some 1010, true, []⟩, ⟨some 30, none, true, []⟩]).outcome
      = (_make_request "u" (mkParams "q" 3) 1011
          [⟨some 30, none, true, []⟩]).outcome := by
  have h := C3_throttle_retry "u" (mkParams "q" 3) 1000
    ⟨some 2, some 1010, true, []⟩ [⟨some 30, none, true, []⟩] 2
    rfl (by decide) (by decide)
  rw [h.1]
  exact ⟨rfl, rfl⟩

/-! ## Step equations for the inner pagination loop -/

/-- Below target, a fetch that raises breaks the inner loop with the
accumulator untouched. -/
theorem innerLoop_eq_of_err (max_repos : Int) (q : String)
    (repositories : List Row) (page : Nat) (now : Int)
    (script : List ScriptedResponse) (e : ReqError)
    (hg : (repositories.length : Int) < max_repos)
    (he : (_make_request searchURL (mkParams q page) now script).outcome
      = .err e) :
    innerLoop max_repos q repositories page now script =
      ⟨repositories,
       (_make_request searchURL (mkParams q page) now script).tEnd,
       (_make_request searchURL (mkParams q page) now script).rest,
       (_make_request searchURL (mkParams q page) now script).issued,
       (_make_request searchURL (mkParams q page) now script).sleeps, []⟩ := by
  rw [innerLoop, dif_pos hg]
  simp only [he]

/-- Below target, a page with zero items breaks the inner loop with the
accumulator untouched. -/
theorem innerLoop_eq_of_empty (max_repos : Int) (q : String)
    (repositories : List Row) (page : Nat) (now : Int)
    (script : List ScriptedResponse)
    (hg : (repositories.length : Int) < max_repos)
    (hok : (_make_request searchURL (mkParams q page) now script).outcome
      = .ok []) :
    innerLoop max_repos q repositories page now script =
      ⟨repositories,
       (_make_request searchURL (mkParams q page) now script).tEnd,
       (_make_request searchURL (mkParams q page) now script).rest,
       (_make_request searchURL (mkParams q page) now script).issued,
       (_make_request searchURL (mkParams q page) now script).sleeps, []⟩ := by
  rw [innerLoop, dif_pos hg]
  simp [hok]

/-- Below target, a non-empty page whose successor page number exceeds 10
appends its items and breaks the inner loop. -/
theorem innerLoop_eq_of_page11 (max_repos : Int) (q : String)
    (repositories : List Row) (page : Nat) (now : Int)
    (script : List ScriptedResponse) (items : List RepoItem)
    (hg : (repositories.length : Int) < max_repos)
    (hok : (_make_request searchURL (mkParams q page) now script).outcome
      = .ok items)
    (hne : items ≠ []) (h10 : page + 1 > 10) :
    innerLoop max_repos q repositories page now script =
      ⟨(appendItems max_repos repositories items).1,
       (_make_request searchURL (mkParams q page) now script).tEnd,
       (_make_request searchURL (mkParams q page) now script).rest,
       (_make_request searchURL (mkParams q page) now script).issued,
       (_make_request searchURL (mkParams q page) now script).sleeps,
       (appendItems max_repos repositories items).2⟩ := by
  rw [innerLoop, dif_pos hg]
  simp only [hok, if_neg hne, dif_pos h10]

/-- Below target, a non-empty page whose successor page number stays within
10 appends its items and continues with the next page. -/
theorem innerLoop_eq_of_step (max_repos : Int) (q : String)
    (repositories : List Row) (page : Nat) (now : Int)
    (script : List ScriptedResponse) (items : List RepoItem)
    (hg : (repositories.length : Int) < max_repos)
    (hok : (_make_request searchURL (mkParams q page) now script).outcome
      = .ok items)
    (hne : items ≠ []) (h10 : ¬page + 1 > 10) :
    innerLoop max_repos q repositories page now script =
      ⟨(innerLoop max_repos q (appendItems max_repos repositories items).1
          (page + 1)
          (_make_request searchURL (mkParams q page) now script).tEnd
          (_make_request searchURL (mkParams q page) now script).rest).repositories,
       (innerLoop max_repos q (appendItems max_repos repositories items).1
          (page + 1)
          (_make_request searchURL (mkParams q page) now script).tEnd
          (_make_request searchURL (mkParams q page) now script).rest).t,
       (innerLoop max_repos q (appendItems max_repos repositories items).1
          (page + 1)
          (_make_request searchURL (mkParams q page) now script).tEnd
          (_make_request searchURL (mkParams q page) now script).rest).script,
       (_make_request searchURL (mkParams q page) now script).issued ++
         (innerLoop max_repos q (appendItems max_repos repositories items).1
            (page + 1)
            (_make_request searchURL (mkParams q page) now script).tEnd
            (_make_request searchURL (mkParams q page) now script).rest).issued,
       (_make_request searchURL (mkParams q page) now script).sleeps ++
         (innerLoop max_repos q (appendItems max_repos repositories items).1
            (page + 1)
            (_make_request searchURL (mkParams q page) now script).tEnd
            (_make_request searchURL (mkParams q page) now script).rest).sleeps,
       (appendItems max_repos repositories items).2 ++
         (innerLoop max_repos q (appendItems max_repos repositories items).1
            (page + 1)
            (_make_request searchURL (mkParams q page) now script).tEnd
            (_make_request searchURL (mkParams q page) now script).rest).snaps⟩ := by
  rw [innerLoop, dif_pos hg]
  simp only [hok, if_neg hne, dif_neg h10]

/-- At or above target, the inner loop is not entered at all. -/
theorem innerLoop_eq_of_done (max_repos : Int) (q : String)
    (repositories : List Row) (page : Nat) (now : Int)
    (script : List ScriptedResponse)
    (hg : ¬(repositories.length : Int) < max_repos) :
    innerLoop max_repos q repositories page now script =
      ⟨repositories, now, script, [], [], []⟩ := by
  rw [innerLoop, dif_neg hg]

/-! ## The accumulator is append-only -/

/-- `appendItems` only ever appends to the accumulator. -/
theorem appendItems_suffix (max_repos : Int) (repositories : List Row)
    (items : List RepoItem) :
    ∃ u, (appendItems max_repos repositories items).1 = repositories ++ u := by
  induction items generalizing repositories with
  | nil => exact ⟨[], by simp [appendItems]⟩
  | cons item rest ih =>
    simp only [appendItems]
    split
    · exact ⟨[project item], rfl⟩
    · obtain ⟨u, hu⟩ := ih (repositories ++ [project item])
      exact ⟨project item :: u, by simpa using hu⟩

/-- The inner pagination loop only ever appends to the accumulator. -/
theorem innerLoop_suffix (max_repos : Int) (q : String)
    (repositories : List Row) (page : Nat) (now : Int)
    (script : List ScriptedResponse) :
    ∃ u, (innerLoop max_repos q repositories page now script).repositories
      = repositories ++ u := by
  induction repositories, page, now, script using innerLoop.induct max_repos q with
  | case1 repositories page now script hg req e he =>
    exact ⟨[], by rw [innerLoop_eq_of_err _ _ _ _ _ _ _ hg he]; simp⟩
  | case2 repositories page now script hg req hok =>
    exact ⟨[], by rw [innerLoop_eq_of_empty _ _ _ _ _ _ hg hok]; simp⟩
  | case3 repositories page now script hg req items hok hne h10 =>
    obtain ⟨u, hu⟩ := appendItems_suffix max_repos repositories items
    exact ⟨u, by rw [innerLoop_eq_of_page11 _ _ _ _ _ _ _ hg hok hne h10]; exact hu⟩
  | case4 repositories page now script hg req items hok hne app h10 ih =>
    obtain ⟨u0, hu0⟩ := appendItems_suffix max_repos repositories items
    obtain ⟨u1, hu1⟩ := ih
    refine ⟨u0 ++ u1, ?_⟩
    rw [innerLoop_eq_of_step _ _ _ _ _ _ _ hg hok hne h10]
    simp only []
    rw [hu1, hu0]
    simp
  | case5 repositories page now script hg =>
    exact ⟨[], by rw [innerLoop_eq_of_done _ _ _ _ _ _ hg]; simp⟩

/-- The whole run only ever appends to the accumulator: rows present when a
window is entered are still present, in place, in the final result. -/
theorem outerLoop_suffix (base_query : String) (max_repos endDay : Int)
    (nowAtMidnight : Bool) (startDate : Int) (repositories : List Row)
    (now : Int) (script : List ScriptedResponse) :
    ∃ u, (outerLoop base_query max_repos endDay nowAtMidnight startDate
      repositories now script).repositories = repositories ++ u := by
  induction startDate, repositories, now, script
    using outerLoop.induct base_query max_repos endDay nowAtMidnight with
  | case1 startDate repositories now script hg currentEnd q inner ih =>
    rw [outerLoop, dif_pos hg]
    simp only []
    simp only [currentEnd, q, inner] at ih
    obtain ⟨u1, hu1⟩ := ih
    obtain ⟨u0, hu0⟩ := innerLoop_suffix max_repos
      (base_query ++ " " ++ date_range startDate (currentEndOf startDate endDay))
      repositories 1 now script
    refine ⟨u0 ++ u1, ?_⟩
    rw [hu1, hu0]
    simp
  | case2 startDate repositories now script hg =>
    rw [outerLoop, dif_neg hg]
    exact ⟨[], by simp⟩

/-- C8: below target, a page response carrying zero items breaks the inner
pagination loop immediately — the accumulator is unchanged, no snapshot is
taken, and the only requests issued from this state are for the current page
number (the counter is never incremented). -/
theorem C8_empty_page (max_repos : Int) (q : String) (repositories : List Row)
    (page : Nat) (now : Int) (script : List ScriptedResponse)
    (hg : (repositories.length : Int) < max_repos)
    (hok : (_make_request searchURL (mkParams q page) now script).outcome
      = .ok []) :
    innerLoop max_repos q repositories page now script =
      ⟨repositories,
       (_make_request searchURL (mkParams q page) now script).tEnd,
       (_make_request searchURL (mkParams q page) now script).rest,
       (_make_request searchURL (mkParams q page) now script).issued,
       (_make_request searchURL (mkParams q page) now script).sleeps, []⟩ ∧
    ∀ x ∈ (innerLoop max_repos q repositories page now script).issued,
      x.2.page = page := by
  have h1 := innerLoop_eq_of_empty max_repos q repositories page now script hg hok
  refine ⟨h1, ?_⟩
  rw [h1]
  intro x hx
  have h2 := _make_request_issued searchURL (mkParams q page) now script x hx
  rw [h2]
  rfl

/-- Witness for C8 at a concrete empty-page response. -/
theorem C8_empty_page_witness :
    innerLoop 5 "w" [] 1 0 [⟨none, none, true, []⟩] =
      ⟨[],
       (_make_request searchURL (mkParams "w" 1) 0 [⟨none, none, true, []⟩]).tEnd,
       (_make_request searchURL (mkParams "w" 1) 0 [⟨none, none, true, []⟩]).rest,
       (_make_request searchURL (mkParams "w" 1) 0 [⟨none, none, true, []⟩]).issued,
       (_make_request searchURL (mkParams "w" 1) 0 [⟨none, none, true, []⟩]).sleeps,
       []⟩ ∧
    ∀ x ∈ (innerLoop 5 "w" [] 1 0 [⟨none, none, true, []⟩]).issued,
      x.2.page = 1 :=
  C8_empty_page 5 "w" [] 1 0 [⟨none, none, true, []⟩] (by decide) (by decide)

/-- C5: an exception while fetching a page is caught and converted into
abandoning that window's pagination: the inner loop returns the rows
accumulated so far untouched, and from any such state the run as a whole
still terminates normally with those rows present, in place, in the final
result. -/
theorem C5_window_abort (max_repos : Int) (q : String)
    (repositories : List Row) (page : Nat) (now : Int)
    (script : List ScriptedResponse) (e : ReqError)
    (hg : (repositories.length : Int) < max_repos)
    (he : (_make_request searchURL (mkParams q page) now script).outcome
      = .err e) :
    (innerLoop max_repos q repositories page now script).repositories
      = repositories ∧
    ∀ (base_query : String) (endDay : Int) (nowAtMidnight : Bool)
      (startDate t : Int) (sc : List ScriptedResponse),
      ∃ u, (outerLoop base_query max_repos endDay nowAtMidnight startDate
        repositories t sc).repositories = repositories ++ u := by
  refine ⟨?_, fun bq ed mid s t sc =>
    outerLoop_suffix bq max_repos ed mid s repositories t sc⟩
  rw [innerLoop_eq_of_err _ _ _ _ _ _ _ hg he]

/-- Witness for C5 at a concrete failing fetch (non-2xx status). -/
theorem C5_window_abort_witness :
    (innerLoop 5 "w" [] 1 0 [⟨none, none, false, []⟩]).repositories = [] ∧
    (∃ u, (outerLoop "b" 5 40 false 0 [] 0 []).repositories = [] ++ u) := by
  have h := C5_window_abort 5 "w" [] 1 0 [⟨none, none, false, []⟩]
    .transport (by decide) (by decide)
  exact ⟨h.1, h.2 "b" 40 false 0 0 []⟩

/-! ## The accumulator never exceeds the target -/

/-- Entering the per-item append loop below target, every length snapshot
taken after an append, and the resulting length, stay at most the target:
the loop breaks the instant the target is reached, mid-page. -/
theorem appendItems_bound (max_repos : Int) (repositories : List Row)
    (items : List RepoItem)
    (hg : (repositories.length : Int) < max_repos) :
    (∀ n ∈ (appendItems max_repos repositories items).2, (n : Int) ≤ max_repos)
    ∧ ((appendItems max_repos repositories items).1.length : Int)
      ≤ max_repos := by
  induction items generalizing repositories with
  | nil =>
    refine ⟨by simp [appendItems], ?_⟩
    simp only [appendItems]
    omega
  | cons item rest ih =>
    simp only [appendItems]
    split
    · constructor
      · intro n hn
        simp only [List.mem_singleton] at hn
        subst hn
        simp only [List.length_append, List.length_singleton]
        push_cast
        omega
      · simp only [List.length_append, List.length_singleton]
        push_cast
        omega
    · have h' : (((repositories ++ [project item]).length : Int)) < max_repos := by
        simp only [List.length_append, List.length_singleton] at *
        push_cast at *
        omega
      have hrec := ih (repositories ++ [project item]) h'
      constructor
      · intro n hn
        rcases List.mem_cons.mp hn with h0 | h0
        · subst h0
          simp only [List.length_append, List.length_singleton]
          push_cast
          omega
        · exact hrec.1 n h0
      · exact hrec.2

/-- Entering the inner pagination loop with the accumulator at most the
target, every snapshot and the final length stay at most the target. -/
theorem innerLoop_bound (max_repos : Int) (q : String)
    (repositories : List Row) (page : Nat) (now : Int)
    (script : List ScriptedResponse)
    (hle : (repositories.length : Int) ≤ max_repos) :
    (∀ n ∈ (innerLoop max_repos q repositories page now script).snaps,
      (n : Int) ≤ max_repos) ∧
    ((innerLoop max_repos q repositories page now
      script).repositories.length : Int) ≤ max_repos := by
  induction repositories, page, now, script using innerLoop.induct max_repos q with
  | case1 repositories page now script hg req e he =>
    rw [innerLoop_eq_of_err _ _ _ _ _ _ _ hg he]
    exact ⟨by simp, le_of_lt hg⟩
  | case2 repositories page now script hg req hok =>
    rw [innerLoop_eq_of_empty _ _ _ _ _ _ hg hok]
    exact ⟨by simp, le_of_lt hg⟩
  | case3 repositories page now script hg req items hok hne h10 =>
    rw [innerLoop_eq_of_page11 _ _ _ _ _ _ _ hg hok hne h10]
    exact appendItems_bound max_repos repositories items hg
  | case4 repositories page now script hg req items hok hne app h10 ih =>
    rw [innerLoop_eq_of_step _ _ _ _ _ _ _ hg hok hne h10]
    have happ := appendItems_bound max_repos repositories items hg
    have hrec := ih happ.2
    constructor
    · intro n hn
      rcases List.mem_append.mp hn with h0 | h0
      · exact happ.1 n h0
      · exact hrec.1 n h0
    · exact hrec.2
  | case5 repositories page now script hg =>
    rw [innerLoop_eq_of_done _ _ _ _ _ _ hg]
    exact ⟨by simp, hle⟩

/-- Starting the window loop with the accumulator at most the target, every
snapshot and the final length stay at most the target. -/
theorem outerLoop_bound (base_query : String) (max_repos endDay : Int)
    (nowAtMidnight : Bool) (startDate : Int) (repositories : List Row)
    (now : Int) (script : List ScriptedResponse)
    (hle : (repositories.length : Int) ≤ max_repos) :
    (∀ n ∈ (outerLoop base_query max_repos endDay nowAtMidnight startDate
      repositories now script).snaps, (n : Int) ≤ max_repos) ∧
    ((outerLoop base_query max_repos endDay nowAtMidnight startDate
      repositories now script).repositories.length : Int) ≤ max_repos := by
  induction startDate, repositories, now, script
    using outerLoop.induct base_query max_repos endDay nowAtMidnight with
  | case1 startDate repositories now script hg currentEnd q inner ih =>
    rw [outerLoop, dif_pos hg]
    simp only []
    have hinner := innerLoop_bound max_repos
      (base_query ++ " " ++ date_range startDate (currentEndOf startDate endDay))
      repositories 1 now script hle
    have hrec := ih hinner.2
    constructor
    · intro n hn
      rcases List.mem_append.mp hn with h0 | h0
      · exact hinner.1 n h0
      · exact hrec.1 n h0
    · exact hrec.2
  | case2 startDate repositories now script hg =>
    rw [outerLoop, dif_neg hg]
    exact ⟨by simp, hle⟩

/-- C1: with a non-negative target, the accumulator's length stays at most
`max_repos` at every point of the run — every length snapshot taken right
after an individual append is bounded (so appending stops the instant the
target is reached, even mid-page), and so is the final row count. -/
theorem C1_accumulator_bounded (base_query : String) (max_repos endDay : Int)
    (nowAtMidnight : Bool) (t0 : Int) (script : List ScriptedResponse)
    (hm : 0 ≤ max_repos) :
    (∀ n ∈ (collect_repositories base_query max_repos endDay nowAtMidnight t0
      script).snaps, (n : Int) ≤ max_repos) ∧
    ((collect_repositories base_query max_repos endDay nowAtMidnight t0
      script).repositories.length : Int) ≤ max_repos :=
  outerLoop_bound base_query max_repos endDay nowAtMidnight 0 [] t0 script
    (by simpa using hm)

/-- Witness for C1: a run with `max_repos = 1` and a page of one item halts
at exactly one row, within the bound. -/
theorem C1_accumulator_bounded_witness :
    ((collect_repositories "q" 1 100 false 0
      [⟨none, none, true,
        [⟨.pystr "a", .pystr "o/a", .pyint 7, .pynone, .pystr "c"⟩]⟩]
      ).repositories.length : Int) ≤ 1 :=
  (C1_accumulator_bounded "q" 1 100 false 0
    [⟨none, none, true,
      [⟨.pystr "a", .pystr "o/a", .pyint 7, .pynone, .pystr "c"⟩]⟩]
    (by decide)).2

/-! ## Page-depth ceiling -/

/-- From a state whose current page number lies in `[1, 10]`, every request
the inner pagination loop issues (retries included) carries a page number in
`[1, 10]`. -/
theorem innerLoop_pages (max_repos : Int) (q : String)
    (repositories : List Row) (page : Nat) (now : Int)
    (script : List ScriptedResponse)
    (hp1 : 1 ≤ page) (hp10 : page ≤ 10) :
    ∀ x ∈ (innerLoop max_repos q repositories page now script).issued,
      1 ≤ x.2.page ∧ x.2.page ≤ 10 := by
  induction repositories, page, now, script using innerLoop.induct max_repos q with
  | case1 repositories page now script hg req e he =>
    rw [innerLoop_eq_of_err _ _ _ _ _ _ _ hg he]
    intro x hx
    rw [_make_request_issued searchURL (mkParams q page) now script x hx]
    exact ⟨hp1, hp10⟩
  | case2 repositories page now script hg req hok =>
    rw [innerLoop_eq_of_empty _ _ _ _ _ _ hg hok]
    intro x hx
    rw [_make_request_issued searchURL (mkParams q page) now script x hx]
    exact ⟨hp1, hp10⟩
  | case3 repositories page now script hg req items hok hne h10 =>
    rw [innerLoop_eq_of_page11 _ _ _ _ _ _ _ hg hok hne h10]
    intro x hx
    rw [_make_request_issued searchURL (mkParams q page) now script x hx]
    exact ⟨hp1, hp10⟩
  | case4 repositories page now script hg req items hok hne app hbreak ih =>
    rw [innerLoop_eq_of_step _ _ _ _ _ _ _ hg hok hne hbreak]
    intro x hx
    rcases List.mem_append.mp hx with h0 | h0
    · rw [_make_request_issued searchURL (mkParams q page) now script x h0]
      exact ⟨hp1, hp10⟩
    · exact ih (by omega) (by omega) x h0
  | case5 repositories page now script hg =>
    rw [innerLoop_eq_of_done _ _ _ _ _ _ hg]
    simp

/-- Every request the window loop issues carries a page number in
`[1, 10]`. -/
theorem outerLoop_pages (base_query : String) (max_repos endDay : Int)
    (nowAtMidnight : Bool) (startDate : Int) (repositories : List Row)
    (now : Int) (script : List ScriptedResponse) :
    ∀ x ∈ (outerLoop base_query max_repos endDay nowAtMidnight startDate
      repositories now script).issued, 1 ≤ x.2.page ∧ x.2.page ≤ 10 := by
  induction startDate, repositories, now, script
    using outerLoop.induct base_query max_repos endDay nowAtMidnight with
  | case1 startDate repositories now script hg currentEnd q inner ih =>
    rw [outerLoop, dif_pos hg]
    simp only []
    intro x hx
    rcases List.mem_append.mp hx with h0 | h0
    · exact innerLoop_pages max_repos
        (base_query ++ " " ++ date_range startDate (currentEndOf startDate endDay))
        repositories 1 now script (le_refl 1) (by omega) x h0
    · exact ih x h0
  | case2 startDate repositories now script hg =>
    rw [outerLoop, dif_neg hg]
    simp

/-- C4: every request issued during a run has `page ∈ [1, 10]` — the inner
loop stops requesting further pages of a window the moment the page counter
would reach 11, so no request with a deeper page number is ever made. -/
theorem C4_page_depth (base_query : String) (max_repos endDay : Int)
    (nowAtMidnight : Bool) (t0 : Int) (script : List ScriptedResponse) :
    ∀ x ∈ (collect_repositories base_query max_repos endDay nowAtMidnight t0
      script).issued, 1 ≤ x.2.page ∧ x.2.page ≤ 10 :=
  outerLoop_pages base_query max_repos endDay nowAtMidnight 0 [] t0 script

/-- Witness for C4 at a concrete run and a concrete issued request. -/
theorem C4_page_depth_witness :
    1 ≤ ((searchURL, mkParams ("q" ++ " " ++ date_range 0 10) 1) :
          String × Params).2.page ∧
    ((searchURL, mkParams ("q" ++ " " ++ date_range 0 10) 1) :
          String × Params).2.page ≤ 10 := by
  refine C4_page_depth "q" 5 10 false 0 [⟨none, none, true, []⟩]
    (searchURL, mkParams ("q" ++ " " ++ date_range 0 10) 1) ?_
  simp [collect_repositories, outerLoop, innerLoop, _make_request,
    currentEndOf, dateGuard, mkParams]

/-! ## The window partition -/

/-- `dateGuard` is antitone in the window start: a day before one that
begins before `now` also begins before `now`. -/
theorem dateGuard_mono (nowAtMidnight : Bool) (s d endDay : Int)
    (hsd : s ≤ d) (h : dateGuard nowAtMidnight d endDay = true) :
    dateGuard nowAtMidnight s endDay = true := by
  cases nowAtMidnight <;> simp [dateGuard] at * <;> omega

/-- Bounds on the clipped window end. -/
theorem currentEndOf_bounds (s endDay : Int) (hse : s ≤ endDay) :
    s ≤ currentEndOf s endDay ∧ currentEndOf s endDay ≤ s + 30 ∧
    currentEndOf s endDay ≤ endDay := by
  unfold currentEndOf
  split <;> omega

/-- Invariants of the window sequence generated by the outer loop from
`startDate`: (1) every window lies within `[startDate, endDay]`, is at most
30 days wide and starts no later than it ends; (2) the first window, if any,
is `(startDate, currentEndOf startDate endDay)`; (3) consecutive windows
chain — each starts the day after the previous one ends and every non-final
window is exactly 30 days wide; (4) if the run's final accumulator is still
below target (so the loop can only have stopped by exhausting the time
span), the windows jointly cover every day from `startDate` up to `now`. -/
theorem outerLoop_windows (base_query : String) (max_repos endDay : Int)
    (nowAtMidnight : Bool) (startDate : Int) (repositories : List Row)
    (now : Int) (script : List ScriptedResponse) :
    (∀ w ∈ (outerLoop base_query max_repos endDay nowAtMidnight startDate
        repositories now script).windows,
      startDate ≤ w.1 ∧ w.1 ≤ w.2 ∧ w.2 ≤ w.1 + 30 ∧ w.2 ≤ endDay) ∧
    ((outerLoop base_query max_repos endDay nowAtMidnight startDate
        repositories now script).windows = [] ∨
      ∃ tail, (outerLoop base_query max_repos endDay nowAtMidnight startDate
        repositories now script).windows
          = (startDate, currentEndOf startDate endDay) :: tail) ∧
    List.Chain' (fun a b => b.1 = a.2 + 1 ∧ a.2 = a.1 + 30)
      (outerLoop base_query max_repos endDay nowAtMidnight startDate
        repositories now script).windows ∧
    (((outerLoop base_query max_repos endDay nowAtMidnight startDate
        repositories now script).repositories.length : Int) < max_repos →
      ∀ d : Int, startDate ≤ d → dateGuard nowAtMidnight d endDay = true →
        ∃ w ∈ (outerLoop base_query max_repos endDay nowAtMidnight startDate
          repositories now script).windows, w.1 ≤ d ∧ d ≤ w.2) := by
  induction startDate, repositories, now, script
    using outerLoop.induct base_query max_repos endDay nowAtMidnight with
  | case1 startDate repositories now script hg currentEnd q inner ih =>
    rw [outerLoop, dif_pos hg]
    simp only [currentEnd, q, inner] at ih
    simp only []
    obtain ⟨ih1, ih2, ih3, ih4⟩ := ih
    have hse : startDate ≤ endDay := by
      have := hg.2
      cases nowAtMidnight <;> simp [dateGuard] at this <;> omega
    obtain ⟨hb1, hb2, hb3⟩ := currentEndOf_bounds startDate endDay hse
    refine ⟨?_, ?_, ?_, ?_⟩
    · intro w hw
      rcases List.mem_cons.mp hw with rfl | hw'
      · exact ⟨le_refl _, hb1, by omega, hb3⟩
      · obtain ⟨h1, h2, h3, h4⟩ := ih1 w hw'
        exact ⟨by omega, h2, h3, h4⟩
    · exact Or.inr ⟨_, rfl⟩
    · refine List.chain'_cons'.mpr ⟨?_, ih3⟩
      intro b hb
      rcases ih2 with hnil | ⟨tail, htail⟩
      · rw [hnil] at hb
        simp at hb
      · rw [htail] at hb
        simp only [List.head?_cons, Option.mem_def, Option.some.injEq] at hb
        subst hb
        have hmem : (currentEndOf startDate endDay + 1,
            currentEndOf (currentEndOf startDate endDay + 1) endDay)
              ∈ (outerLoop base_query max_repos endDay nowAtMidnight
                (currentEndOf startDate endDay + 1)
                (innerLoop max_repos
                  (base_query ++ " " ++
                    date_range startDate (currentEndOf startDate endDay))
                  repositories 1 now script).repositories
                (innerLoop max_repos
                  (base_query ++ " " ++
                    date_range startDate (currentEndOf startDate endDay))
                  repositories 1 now script).t
                (innerLoop max_repos
                  (base_query ++ " " ++
                    date_range startDate (currentEndOf startDate endDay))
                  repositories 1 now script).script).windows := by
          rw [htail]
          exact List.mem_cons_self _ _
        obtain ⟨hc1, hc2, hc3, hc4⟩ := ih1 _ hmem
        constructor
        · rfl
        · have hlt : currentEndOf startDate endDay < endDay := by omega
          unfold currentEndOf at hlt ⊢
          split at hlt <;> split <;> omega
    · intro hlen d hd hdg
      by_cases hdc : d ≤ currentEndOf startDate endDay
      · exact ⟨(startDate, currentEndOf startDate endDay),
          List.mem_cons_self _ _, hd, hdc⟩
      · obtain ⟨w, hw, hw1, hw2⟩ := ih4 hlen d (by omega) hdg
        exact ⟨w, List.mem_cons_of_mem _ hw, hw1, hw2⟩
  | case2 startDate repositories now script hg =>
    rw [outerLoop, dif_neg hg]
    refine ⟨by simp, Or.inl rfl, by simp, ?_⟩
    intro hlen d hd hdg
    exact absurd ⟨hlen, dateGuard_mono nowAtMidnight startDate d endDay hd hdg⟩ hg

/-- C2 (amended): in every run the generated windows are contiguous,
non-overlapping and ascending — each starts the day after the previous one
ends, every non-final window is exactly 30 days wide, and every window is at
most 30 days wide and ends no later than `now`'s day; and they jointly
cover every day of `[overall_start, now]` provided the run was not halted
early by reaching `max_repos` (`dateGuard` states that a day begins before
`now`). -/
theorem C2_windows_partition (base_query : String) (max_repos endDay : Int)
    (nowAtMidnight : Bool) (t0 : Int) (script : List ScriptedResponse) :
    List.Chain' (fun a b => b.1 = a.2 + 1 ∧ a.2 = a.1 + 30)
      (collect_repositories base_query max_repos endDay nowAtMidnight t0
        script).windows ∧
    (∀ w ∈ (collect_repositories base_query max_repos endDay nowAtMidnight t0
        script).windows, w.1 ≤ w.2 ∧ w.2 ≤ w.1 + 30 ∧ w.2 ≤ endDay) ∧
    (((collect_repositories base_query max_repos endDay nowAtMidnight t0
        script).repositories.length : Int) < max_repos →
      ∀ d : Int, 0 ≤ d → dateGuard nowAtMidnight d endDay = true →
        ∃ w ∈ (collect_repositories base_query max_repos endDay nowAtMidnight
          t0 script).windows, w.1 ≤ d ∧ d ≤ w.2) := by
  obtain ⟨h1, _h2, h3, h4⟩ := outerLoop_windows base_query max_repos endDay
    nowAtMidnight 0 [] t0 script
  exact ⟨h3, fun w hw => (h1 w hw).2, h4⟩

/-- Witness for C2: a two-window run covering `[0, 40]`; day 35 is covered
by the clipped second window `(31, 40)`. -/
theorem C2_windows_partition_witness :
    ∃ w ∈ (collect_repositories "q" 5 40 false 0
      [⟨none, none, true, []⟩, ⟨none, none, true, []⟩]).windows,
      w.1 ≤ 35 ∧ 35 ≤ w.2 := by
  have hlen : ((collect_repositories "q" 5 40 false 0
      [⟨none, none, true, []⟩, ⟨none, none, true, []⟩]
      ).repositories.length : Int) < 5 := by
    simp [collect_repositories, outerLoop, innerLoop, _make_request,
      currentEndOf, dateGuard, mkParams]
  exact (C2_windows_partition "q" 5 40 false 0
    [⟨none, none, true, []⟩, ⟨none, none, true, []⟩]).2.2 hlen 35
    (by decide) (by decide)

/-- C2 counterexample: the claim's coverage of `[overall_start, now]` fails
for a run halted early by `max_repos`.  With `max_repos = 1`, one item
arriving in the first window and `now` in day 100, the run generates the
single window `(0, 30)`, and day 50 — which lies in `[overall_start, now]`
— is covered by no window. -/
theorem C2_windows_counterexample :
    ∃ d : Int, 0 ≤ d ∧ dateGuard false d 100 = true ∧
      ∀ w ∈ (collect_repositories "q" 1 100 false 0
        [⟨none, none, true,
          [⟨.pystr "a", .pystr "o/a", .pyint 7, .pynone, .pystr "c"⟩]⟩]).windows,
        ¬(w.1 ≤ d ∧ d ≤ w.2) := by
  refine ⟨50, by decide, by decide, ?_⟩
  have hwin : (collect_repositories "q" 1 100 false 0
      [⟨none, none, true,
        [⟨.pystr "a", .pystr "o/a", .pyint 7, .pynone, .pystr "c"⟩]⟩]).windows
      = [(0, 30)] := by
    simp [collect_repositories, outerLoop, innerLoop, _make_request,
      currentEndOf, dateGuard, mkParams, appendItems, project]
  rw [hwin]
  decide

/-! ## Column inference of the returned table -/

/-- A projected row has exactly the five field names as keys, in dict
order. -/
theorem project_keys (repo : RepoItem) :
    (project repo).map Prod.fst = fieldNames := rfl

/-- Unfolding `addCols` one key at a time. -/
theorem addCols_cons (cols : List String) (kv : String × PyValue) (row : Row) :
    addCols cols (kv :: row)
      = addCols (if kv.1 ∈ cols then cols else cols ++ [kv.1]) row := rfl

/-- Keys already present add no columns. -/
theorem addCols_absorb (cols : List String) (row : Row)
    (h : ∀ kv ∈ row, kv.1 ∈ cols) :
    addCols cols row = cols := by
  induction row generalizing cols with
  | nil => rfl
  | cons kv row ih =>
    rw [addCols_cons, if_pos (h kv (List.mem_cons_self _ _))]
    exact ih cols fun kv' h' => h kv' (List.mem_cons_of_mem _ h')

/-- `addCols` depends only on the keys of the row. -/
theorem addCols_eq_keys (cols : List String) (row : Row) :
    addCols cols row = (row.map Prod.fst).foldl
      (fun cs k => if k ∈ cs then cs else cs ++ [k]) cols := by
  induction row generalizing cols with
  | nil => rfl
  | cons kv row ih =>
    rw [addCols_cons, List.map_cons, List.foldl_cons]
    exact ih _

/-- Rows all keyed by the five field names leave an already complete column
list unchanged. -/
theorem foldl_addCols_fieldNames (rest : List Row)
    (h : ∀ r ∈ rest, r.map Prod.fst = fieldNames) :
    List.foldl addCols fieldNames rest = fieldNames := by
  induction rest with
  | nil => rfl
  | cons r rest ih =>
    rw [List.foldl_cons]
    have habs : addCols fieldNames r = fieldNames := by
      apply addCols_absorb
      intro kv hkv
      have hmem : kv.1 ∈ r.map Prod.fst := List.mem_map_of_mem _ hkv
      rwa [h r (List.mem_cons_self _ _)] at hmem
    rw [habs]
    exact ih fun r' h' => h r' (List.mem_cons_of_mem _ h')

/-- `pd.DataFrame` infers exactly the five field names as columns from any
non-empty list of projected rows. -/
theorem dataFrameColumns_of_keys (rows : List Row) (hne : rows ≠ [])
    (h : ∀ r ∈ rows, r.map Prod.fst = fieldNames) :
    dataFrameColumns rows = fieldNames := by
  match rows, hne with
  | r0 :: rest, _ =>
    have h0 : addCols [] r0 = fieldNames := by
      rw [addCols_eq_keys, h r0 (List.mem_cons_self _ _)]
      decide
    show List.foldl addCols (addCols [] r0) rest = fieldNames
    rw [h0]
    exact foldl_addCols_fieldNames rest
      fun r' h' => h r' (List.mem_cons_of_mem _ h')

/-- `appendItems` preserves the invariant that every accumulated row is
keyed by exactly the five field names. -/
theorem appendItems_keys (max_repos : Int) (repositories : List Row)
    (items : List RepoItem)
    (h : ∀ r ∈ repositories, r.map Prod.fst = fieldNames) :
    ∀ r ∈ (appendItems max_repos repositories items).1,
      r.map Prod.fst = fieldNames := by
  induction items generalizing repositories with
  | nil => simpa [appendItems] using h
  | cons item rest ih =>
    simp only [appendItems]
    split
    · intro r hr
      rcases List.mem_append.mp hr with h0 | h0
      · exact h r h0
      · rw [List.mem_singleton.mp h0]
        exact project_keys item
    · refine ih (repositories ++ [project item]) ?_
      intro r hr
      rcases List.mem_append.mp hr with h0 | h0
      · exact h r h0
      · rw [List.mem_singleton.mp h0]
        exact project_keys item

/-- The inner pagination loop preserves the five-field-keys invariant. -/
theorem innerLoop_keys (max_repos : Int) (q : String)
    (repositories : List Row) (page : Nat) (now : Int)
    (script : List ScriptedResponse)
    (h : ∀ r ∈ repositories, r.map Prod.fst = fieldNames) :
    ∀ r ∈ (innerLoop max_repos q repositories page now script).repositories,
      r.map Prod.fst = fieldNames := by
  induction repositories, page, now, script using innerLoop.induct max_repos q with
  | case1 repositories page now script hg req e he =>
    rw [innerLoop_eq_of_err _ _ _ _ _ _ _ hg he]
    exact h
  | case2 repositories page now script hg req hok =>
    rw [innerLoop_eq_of_empty _ _ _ _ _ _ hg hok]
    exact h
  | case3 repositories page now script hg req items hok hne h10 =>
    rw [innerLoop_eq_of_page11 _ _ _ _ _ _ _ hg hok hne h10]
    exact appendItems_keys max_repos repositories items h
  | case4 repositories page now script hg req items hok hne app h10 ih =>
    rw [innerLoop_eq_of_step _ _ _ _ _ _ _ hg hok hne h10]
    exact ih (appendItems_keys max_repos repositories items h)
  | case5 repositories page now script hg =>
    rw [innerLoop_eq_of_done _ _ _ _ _ _ hg]
    exact h

/-- The window loop preserves the five-field-keys invariant. -/
theorem outerLoop_keys (base_query : String) (max_repos endDay : Int)
    (nowAtMidnight : Bool) (startDate : Int) (repositories : List Row)
    (now : Int) (script : List ScriptedResponse)
    (h : ∀ r ∈ repositories, r.map Prod.fst = fieldNames) :
    ∀ r ∈ (outerLoop base_query max_repos endDay nowAtMidnight startDate
      repositories now script).repositories,
      r.map Prod.fst = fieldNames := by
  induction startDate, repositories, now, script
    using outerLoop.induct base_query max_repos endDay nowAtMidnight with
  | case1 startDate repositories now script hg currentEnd q inner ih =>
    rw [outerLoop, dif_pos hg]
    simp only []
    exact ih (innerLoop_keys max_repos
      (base_query ++ " " ++ date_range startDate (currentEndOf startDate endDay))
      repositories 1 now script h)
  | case2 startDate repositories now script hg =>
    rw [outerLoop, dif_neg hg]
    exact h

/-- C7 (amended): every run that accumulated at least one row returns a
table whose named columns are exactly the five RepositoryRecord fields
`name, full_name, stargazers_count, language, created_at`, in dict order,
with the accumulated rows as the table rows in insertion order.  (A run with
zero rows returns an empty table with no columns.) -/
theorem C7_dataframe_columns (base_query : String) (max_repos endDay : Int)
    (nowAtMidnight : Bool) (t0 : Int) (script : List ScriptedResponse)
    (hne : (collect_repositories base_query max_repos endDay nowAtMidnight t0
      script).repositories ≠ []) :
    pdDataFrame (collect_repositories base_query max_repos endDay
        nowAtMidnight t0 script).repositories =
      (fieldNames, (collect_repositories base_query max_repos endDay
        nowAtMidnight t0 script).repositories) := by
  unfold pdDataFrame
  rw [dataFrameColumns_of_keys _ hne
    (outerLoop_keys base_query max_repos endDay nowAtMidnight 0 [] t0 script
      (by simp))]

/-- Witness for C7: a one-row run yields the five named columns. -/
theorem C7_dataframe_columns_witness :
    pdDataFrame (collect_repositories "q" 1 100 false 0
        [⟨none, none, true,
          [⟨.pystr "a", .pystr "o/a", .pyint 7, .pynone, .pystr "c"⟩]⟩]
        ).repositories =
      (fieldNames, (collect_repositories "q" 1 100 false 0
        [⟨none, none, true,
          [⟨.pystr "a", .pystr "o/a", .pyint 7, .pynone, .pystr "c"⟩]⟩]
        ).repositories) := by
  refine C7_dataframe_columns "q" 1 100 false 0
    [⟨none, none, true,
      [⟨.pystr "a", .pystr "o/a", .pyint 7, .pynone, .pystr "c"⟩]⟩] ?_
  have hrows : (collect_repositories "q" 1 100 false 0
      [⟨none, none, true,
        [⟨.pystr "a", .pystr "o/a", .pyint 7, .pynone, .pystr "c"⟩]⟩]
      ).repositories
      = [project ⟨.pystr "a", .pystr "o/a", .pyint 7, .pynone, .pystr "c"⟩] := by
    simp [collect_repositories, outerLoop, innerLoop, _make_request,
      currentEndOf, dateGuard, mkParams, appendItems]
  rw [hrows]
  simp

/-- C7 counterexample: the claim's zero-row case fails — a run that
accumulated no rows returns `pd.DataFrame([])`, an empty frame with no
columns at all rather than the five named columns. -/
theorem C7_dataframe_columns_counterexample :
    (collect_repositories "q" 5 10 false 0
      [⟨none, none, true, []⟩]).repositories = [] ∧
    dataFrameColumns (collect_repositories "q" 5 10 false 0
      [⟨none, none, true, []⟩]).repositories ≠ fieldNames := by
  have h : (collect_repositories "q" 5 10 false 0
      [⟨none, none, true, []⟩]).repositories = [] := by
    simp [collect_repositories, outerLoop, innerLoop, _make_request,
      currentEndOf, dateGuard, mkParams]
  refine ⟨h, ?_⟩
  rw [h]
  decide

end Collector
